import Mathlib

/-!
Verification development for the key-levels screener
(src/key_levels_watchlist.py).

The Python source is shallowly embedded.  Prices, thresholds and OHLCV
fields are rationals; the two places where IEEE/numpy float behaviour is
essential are modelled explicitly: division by a zero level (numpy yields
inf or nan with a warning, it does not raise) and round(x, 2) (modelled as
exact decimal rounding, half to even, as Python rounds).  Time instants are
integers counting minutes since 1970-01-01 00:00 UTC; the source passes
milliseconds to the gateway, and the scale factor is irrelevant to every
property considered here.  The market-data gateway (bitget.fetch_ohlcv and
bitget.fetch_ticker) and the per-worker clock (datetime.utcnow) are taken
as explicit functional parameters: an Except.error models a raised
exception, an Except.ok a returned value.
-/

/-- Calendar day number of a time instant (minutes since the epoch):
the date part of a datetime. -/
def dayOf (t : Int) : Int := Int.fdiv t 1440

/-- Minutes past midnight of a time instant: the time-of-day part of a
datetime, which the source keeps when it shifts dates. -/
def minutesOfDay (t : Int) : Int := Int.emod t 1440

/-- Day of week with Monday = 0, as Python datetime.weekday(); day 0
(1970-01-01) was a Thursday, hence the offset 3. -/
def weekday (t : Int) : Int := Int.emod (dayOf t + 3) 7

/-- Civil date (year, month, day) of a day number: the standard proleptic
Gregorian days-to-date conversion, used to model datetime month fields. -/
def civilFromDays (z0 : Int) : Int × Int × Int :=
  let z := z0 + 719468
  let era := Int.fdiv z 146097
  let doe := z - era * 146097
  let yoe := Int.fdiv (doe - Int.fdiv doe 1460 + Int.fdiv doe 36524 - Int.fdiv doe 146096) 365
  let y := yoe + era * 400
  let doy := doe - (365 * yoe + Int.fdiv yoe 4 - Int.fdiv yoe 100)
  let mp := Int.fdiv (5 * doy + 2) 153
  let d := doy - Int.fdiv (153 * mp + 2) 5 + 1
  let m := mp + (if mp < 10 then 3 else -9)
  (y + (if m ≤ 2 then 1 else 0), m, d)

/-- Day number of a civil date: inverse of civilFromDays. -/
def daysFromCivil (y0 m d : Int) : Int :=
  let y := y0 - (if m ≤ 2 then 1 else 0)
  let era := Int.fdiv y 400
  let yoe := y - era * 400
  let doy := Int.fdiv (153 * (m + (if 2 < m then -3 else 9)) + 2) 5 + d - 1
  let doe := yoe * 365 + Int.fdiv yoe 4 - Int.fdiv yoe 100 + doy
  era * 146097 + doe - 719468

/-- Model of dt.replace(day=1): same year, month and time of day, with the
day of the month set to 1. -/
def replaceDay1 (t : Int) : Int :=
  let c := civilFromDays (dayOf t)
  daysFromCivil c.1 c.2.1 1 * 1440 + minutesOfDay t

/-- Line 49 of the source: start_of_this_week = now - timedelta(days=now.weekday()).
As in the source, the time of day of now is retained. -/
def startOfThisWeek (now : Int) : Int := now - 1440 * weekday now

/-- Line 50: start_of_last_week = start_of_this_week - timedelta(weeks=1). -/
def startOfLastWeek (now : Int) : Int := startOfThisWeek now - 7 * 1440

/-- Line 51: start_of_this_month = now.replace(day=1). -/
def startOfThisMonth (now : Int) : Int := replaceDay1 now

/-- Line 52: start_of_last_month = (start_of_this_month - timedelta(days=1)).replace(day=1). -/
def startOfLastMonth (now : Int) : Int := replaceDay1 (startOfThisMonth now - 1440)

/-- The four calendar boundaries computed on lines 48-52 from one reading
of datetime.utcnow(). -/
structure Boundaries where
  start_of_this_week : Int
  start_of_last_week : Int
  start_of_this_month : Int
  start_of_last_month : Int
deriving DecidableEq

/-- Lines 48-52 as a function of the instant now that the call to
datetime.utcnow() returned. -/
def calendarBoundaries (now : Int) : Boundaries :=
  ⟨startOfThisWeek now, startOfLastWeek now, startOfThisMonth now, startOfLastMonth now⟩

/-- One OHLCV record, a row of the DataFrame built in get_ohlcv with
columns timestamp, open, high, low, close, volume; opn stands for the
source's open column, which is not a legal Lean identifier. -/
structure Bar where
  timestamp : Int
  opn : ℚ
  high : ℚ
  low : ℚ
  close : ℚ
  volume : ℚ
deriving DecidableEq

/-- The timeframe argument of get_ohlcv: the source passes the strings
'1w' (weekly candles) and '1M' (monthly candles). -/
inductive Timeframe
  | w1
  | M1
deriving DecidableEq

/-- Lines 34-45: get_ohlcv.  The argument is the outcome of the
bitget.fetch_ohlcv gateway call: Except.error models a raised exception
(caught on line 43, returning an empty frame), Except.ok a returned candle
list (an empty one is turned into an empty frame on line 40).  The
DataFrame is modelled as the bar list itself; an empty frame has no
timestamp column, and a frame built from a non-empty candle list always
has one, which is what the column test on lines 62 and 72 observes. -/
def get_ohlcv (gatewayResult : Except String (List Bar)) : List Bar :=
  match gatewayResult with
  | Except.error _ => []
  | Except.ok [] => []
  | Except.ok bars => bars

/-- Lines 62-69 (and identically 72-79): from a fetched candle series,
take high and low of the candle at iloc[-2] when at least two candles are
present, of the candle at iloc[-1] when exactly one is; none when the
frame is empty.  No timestamp filtering is performed by the source. -/
def resolvePeriodLevels (data : List Bar) : Option (ℚ × ℚ) :=
  if data.isEmpty then none
  else if 2 ≤ data.length then
    (data.get? (data.length - 2)).map (fun b => (b.high, b.low))
  else
    (data.get? (data.length - 1)).map (fun b => (b.high, b.low))

/-- The levels dict built by get_last_week_month_levels: each of the four
names is either present with a value or absent.  week_high and week_low
are always set together, as are month_high and month_low. -/
structure Levels where
  week_high : Option ℚ
  week_low : Option ℚ
  month_high : Option ℚ
  month_low : Option ℚ
deriving DecidableEq

/-- Lines 55-83 given the already computed boundaries: fetch the weekly
series since start_of_last_week and the monthly series since
start_of_last_month (the limits 10 and 5 are absorbed into the gateway
parameter), then resolve each period independently. -/
def levelsFromBoundaries (b : Boundaries)
    (gw : Timeframe → Int → Except String (List Bar)) : Levels :=
  let week_data := get_ohlcv (gw Timeframe.w1 b.start_of_last_week)
  let month_data := get_ohlcv (gw Timeframe.M1 b.start_of_last_month)
  let w := resolvePeriodLevels week_data
  let m := resolvePeriodLevels month_data
  ⟨w.map Prod.fst, w.map Prod.snd, m.map Prod.fst, m.map Prod.snd⟩

/-- Lines 47-83: get_last_week_month_levels.  The first argument is the
instant returned by the datetime.utcnow() call on line 48, which the
source makes once per invocation, inside the per-symbol function. -/
def get_last_week_month_levels (now : Int)
    (gw : Timeframe → Int → Except String (List Bar)) : Levels :=
  levelsFromBoundaries (calendarBoundaries now) gw

/-- Definition following the spec's words (section 4.2, steps 3-4), for
comparison with the source's resolver: restrict the series to bars whose
timestamp lies in the window from lo inclusive to hi exclusive, and if at
least one bar remains return the maximum high and minimum low over that
restricted set, else none. -/
def specRestrictedLevels (bars : List Bar) (lo hi : Int) : Option (ℚ × ℚ) :=
  match bars.filter (fun b => decide (lo ≤ b.timestamp ∧ b.timestamp < hi)) with
  | [] => none
  | b :: bs => some (bs.foldl (fun a x => (max a.1 x.high, min a.2 x.low)) (b.high, b.low))

/-- The value of one numpy float computation in the scan loop: a finite
rational, positive infinity, or nan.  In the source prices and levels are
numpy float64 scalars, so dividing by a zero level yields inf (or nan when
the numerator is also zero) with a RuntimeWarning; it does not raise. -/
inductive PyFloat
  | fin (q : ℚ)
  | inf
  | nan
deriving DecidableEq

/-- Line 99: dist = abs(price - levels[key]) / levels[key] * 100, under
numpy scalar semantics for a zero divisor. -/
def pyDistVal (price level : ℚ) : PyFloat :=
  if level = 0 then (if price = 0 then PyFloat.nan else PyFloat.inf)
  else PyFloat.fin (|price - level| / level * 100)

/-- Line 101: dist <= proximity_threshold.  Comparing inf or nan with a
finite threshold is false. -/
def pyLe (x : PyFloat) (t : ℚ) : Bool :=
  match x with
  | PyFloat.fin q => decide (q ≤ t)
  | PyFloat.inf => false
  | PyFloat.nan => false

/-- Rounding of a rational to the nearest integer, halves to even, as
Python round does on the decimal value. -/
def roundHalfEven (q : ℚ) : Int :=
  let f := ⌊q⌋
  let r := q - (f : ℚ)
  if r < 1 / 2 then f
  else if 1 / 2 < r then f + 1
  else if Int.emod f 2 = 0 then f else f + 1

/-- Line 100: round(dist, 2), modelled as exact rounding to two decimal
places.  (Python rounds the decimal value of the float64; no input used in
this development sits at a representation boundary.) -/
def pyRound2 (q : ℚ) : ℚ := (roundHalfEven (q * 100) : ℚ) / 100

/-- round(x, 2) applied to a possibly non-finite numpy value: inf and nan
round to themselves. -/
def pyRound2F : PyFloat → PyFloat
  | PyFloat.fin q => PyFloat.fin (pyRound2 q)
  | PyFloat.inf => PyFloat.inf
  | PyFloat.nan => PyFloat.nan

/-- One cell of the per-symbol distances dict built on lines 97-104:
either a rounded computed distance (line 100) or the string no_data
(line 104) when the level name is absent. -/
inductive DistEntry
  | val (x : PyFloat)
  | no_data
deriving DecidableEq

/-- Lines 98-104 for one level name: given the level value when present,
produce the distances-dict entry and, when the unrounded distance passes
the threshold test of line 101, the match tuple (symbol, price, dist) of
line 102.  The match carries the unrounded distance; the dict entry the
rounded one. -/
def evalKey (symbol : String) (price : ℚ) (threshold : ℚ) (level : Option ℚ) :
    DistEntry × Option (String × ℚ × PyFloat) :=
  match level with
  | none => (DistEntry.no_data, none)
  | some l =>
    let dist := pyDistVal price l
    (DistEntry.val (pyRound2F dist),
     if pyLe dist threshold then some (symbol, price, dist) else none)

/-- The result dict of scan_symbol (line 86): for each level name, either
a match tuple or None. -/
structure ScanResult where
  week_high : Option (String × ℚ × PyFloat)
  week_low : Option (String × ℚ × PyFloat)
  month_high : Option (String × ℚ × PyFloat)
  month_low : Option (String × ℚ × PyFloat)
deriving DecidableEq

/-- One row appended to debug_rows: either the distances dict of a
successful scan (line 106) or the symbol-plus-error-message dict appended
by the except handler (lines 108-110). -/
inductive DebugRow
  | dists (symbol : String) (week_high week_low month_high month_low : DistEntry)
  | err (symbol : String) (message : String)
deriving DecidableEq

/-- Lines 85-111: scan_symbol.  The ticker argument is the outcome of the
fetch of the current price (bitget.fetch_ticker plus the access to
ticker['last']); an Except.error is the exception caught on line 108,
which makes the worker record an error row and return the all-None result.
The level computation and the per-key loop themselves cannot raise: gateway
errors are absorbed by get_ohlcv, and a zero level divides to a non-finite
numpy value rather than raising.  The aggregation into valid_levels_rows
and all_levels_logged (lines 93-95) feeds display-only tables used by no
claim and is not modelled. -/
def scan_symbol (threshold : ℚ) (symbol : String) (now : Int)
    (ticker : Except String ℚ) (gw : Timeframe → Int → Except String (List Bar)) :
    ScanResult × DebugRow :=
  match ticker with
  | Except.error e => (⟨none, none, none, none⟩, DebugRow.err symbol e)
  | Except.ok price =>
    let levels := get_last_week_month_levels now gw
    let ewh := evalKey symbol price threshold levels.week_high
    let ewl := evalKey symbol price threshold levels.week_low
    let emh := evalKey symbol price threshold levels.month_high
    let eml := evalKey symbol price threshold levels.month_low
    (⟨ewh.2, ewl.2, emh.2, eml.2⟩,
     DebugRow.dists symbol ewh.1 ewl.1 emh.1 eml.1)

/-- The four level names iterated on line 97 and keyed in the results
dict of line 114. -/
inductive LevelName
  | week_high
  | week_low
  | month_high
  | month_low
deriving DecidableEq

/-- Projection of a scan result at one level name. -/
def ScanResult.field (r : ScanResult) : LevelName → Option (String × ℚ × PyFloat)
  | LevelName.week_high => r.week_high
  | LevelName.week_low => r.week_low
  | LevelName.month_high => r.month_high
  | LevelName.month_low => r.month_low

/-- The shared results dict of line 114: one match list per level name. -/
structure Results where
  week_high : List (String × ℚ × PyFloat)
  week_low : List (String × ℚ × PyFloat)
  month_high : List (String × ℚ × PyFloat)
  month_low : List (String × ℚ × PyFloat)
deriving DecidableEq

/-- Projection of the results dict at one level name. -/
def Results.field (r : Results) : LevelName → List (String × ℚ × PyFloat)
  | LevelName.week_high => r.week_high
  | LevelName.week_low => r.week_low
  | LevelName.month_high => r.month_high
  | LevelName.month_low => r.month_low

/-- Line 114: the initial results dict, four empty lists. -/
def emptyResults : Results := ⟨[], [], [], []⟩

/-- Lines 125-127: for key in results, append res[key] when it is not
None (a 3-tuple is always truthy). -/
def mergeResult (acc : Results) (r : ScanResult) : Results :=
  ⟨acc.week_high ++ r.week_high.toList,
   acc.week_low ++ r.week_low.toList,
   acc.month_high ++ r.month_high.toList,
   acc.month_low ++ r.month_low.toList⟩

/-- Lines 123-130: the fan-in loop over as_completed, processing one
completed worker result at a time in the given completion order, merging
matches, incrementing the completed counter and reporting it after each
completion.  Returns the final results, the final counter, and the trace
of counter values reported to the progress bar, in order. -/
def collectFrom (acc : Results) (c : ℕ) : List ScanResult → Results × ℕ × List ℕ
  | [] => (acc, c, [])
  | r :: rs =>
    let rest := collectFrom (mergeResult acc r) (c + 1) rs
    (rest.1, rest.2.1, (c + 1) :: rest.2.2)

/-- The whole fan-in loop starting, as on lines 114-118, from empty
results and completed = 0. -/
def collect (rs : List ScanResult) : Results × ℕ × List ℕ :=
  collectFrom emptyResults 0 rs

/-- Line 122: one worker per symbol.  Worker number i obtains its own
clock reading (the datetime.utcnow() call inside
get_last_week_month_levels runs once per worker), its own ticker fetch
outcome and its own view of the gateway. -/
def runWorkers (threshold : ℚ) (clock : ℕ → Int)
    (tickers : String → Except String ℚ)
    (gw : String → Timeframe → Int → Except String (List Bar)) :
    ℕ → List String → List (ScanResult × DebugRow)
  | _, [] => []
  | i, s :: rest =>
    scan_symbol threshold s (clock i) (tickers s) (gw s)
      :: runWorkers threshold clock tickers gw (i + 1) rest

/-- Lines 113-130: one scan pass.  Fan out one worker per symbol, then
fan in: collect the match lists, the debug rows and the completed count.
The collection is modelled in worker order; every property stated about
it is order-insensitive or quantifies over permutations. -/
def scanPass (threshold : ℚ) (symbols : List String) (clock : ℕ → Int)
    (tickers : String → Except String ℚ)
    (gw : String → Timeframe → Int → Except String (List Bar)) :
    Results × List DebugRow × ℕ :=
  let outs := runWorkers threshold clock tickers gw 0 symbols
  let collected := collect (outs.map Prod.fst)
  (collected.1, outs.map Prod.snd, collected.2.1)

/-- The string cell content no_data, named to keep string literals in one
place. -/
def noDataStr : String := "no_data"

/-- The placeholder string compared against on line 177; it comes from the
fillna of line 156, which line 175 does not apply, so it never occurs. -/
def dashStr : String := "-"

/-- One value of the melted Distance column on lines 175-179: a finite
float, positive infinity (from a zero level), or a string (no_data markers
and error messages).  nan cells never reach the melted list: melting a
missing cell produces NaN and line 179 drops it, as does the nan produced
by a zero price over a zero level. -/
inductive MeltVal
  | num (q : ℚ)
  | infv
  | s (t : String)
deriving DecidableEq

/-- A column of the DataFrame built from debug_rows, beyond the symbol
index: the four level-name columns, plus the error column that exists as
soon as one error row was appended. -/
inductive Column
  | week_high
  | week_low
  | month_high
  | month_low
  | error
deriving DecidableEq

/-- The four level-name columns. -/
def levelNames : List Column :=
  [Column.week_high, Column.week_low, Column.month_high, Column.month_low]

/-- The symbol of a debug row. -/
def rowSymbol : DebugRow → String
  | DebugRow.dists sym _ _ _ _ => sym
  | DebugRow.err sym _ => sym

/-- Whether a debug row is a distances row. -/
def isDistsRow : DebugRow → Bool
  | DebugRow.dists _ _ _ _ _ => true
  | DebugRow.err _ _ => false

/-- Whether a debug row is an error row. -/
def isErrRow : DebugRow → Bool
  | DebugRow.dists _ _ _ _ _ => false
  | DebugRow.err _ _ => true

/-- A distances-dict entry as a DataFrame cell: a rounded finite distance
is a number, an inf distance is inf, absence of the level is the string
no_data, and a nan distance is a NaN cell (none). -/
def entryVal : DistEntry → Option MeltVal
  | DistEntry.no_data => some (MeltVal.s noDataStr)
  | DistEntry.val (PyFloat.fin q) => some (MeltVal.num q)
  | DistEntry.val PyFloat.inf => some MeltVal.infv
  | DistEntry.val PyFloat.nan => none

/-- The cell of a debug row in a given column; none is a NaN cell (a key
the row's dict did not carry). -/
def cell (r : DebugRow) : Column → Option MeltVal :=
  match r with
  | DebugRow.dists _ wh wl mh ml => fun c =>
    match c with
    | Column.week_high => entryVal wh
    | Column.week_low => entryVal wl
    | Column.month_high => entryVal mh
    | Column.month_low => entryVal ml
    | Column.error => none
  | DebugRow.err _ msg => fun c =>
    match c with
    | Column.error => some (MeltVal.s msg)
    | _ => none

/-- The non-index columns of pd.DataFrame(debug_rows): the level columns
exist when some distances row exists, the error column when some error row
exists.  (pandas orders columns by first appearance; a fixed order is used
here, which can only permute ties in the final sort and affects no stated
property.) -/
def frameColumns (rows : List DebugRow) : List Column :=
  (if rows.any isDistsRow then levelNames else []) ++
    (if rows.any isErrRow then [Column.error] else [])

/-- One melted record: symbol, Level, Distance. -/
abbrev Melted := String × Column × MeltVal

/-- Lines 175-179: set_index("symbol"), melt into (symbol, Level,
Distance) records column by column, then drop NaN cells (dropna) — a NaN
cell is never materialised here — and filter out the placeholder and
no_data strings. -/
def meltedRows (rows : List DebugRow) : List Melted :=
  (frameColumns rows).flatMap fun col =>
    rows.filterMap fun r => (cell r col).map fun v => (rowSymbol r, col, v)

/-- Lines 177-179: the records surviving the two string filters (the
dropna is the absence of NaN cells in meltedRows). -/
def filteredMelted (rows : List DebugRow) : List Melted :=
  (meltedRows rows).filter fun e =>
    !(decide (e.2.2 = MeltVal.s dashStr)) && !(decide (e.2.2 = MeltVal.s noDataStr))

/-- Whether a melted value is a string (error messages; the filtered-out
markers are also strings). -/
def isStrVal : MeltVal → Bool
  | MeltVal.s _ => true
  | _ => false

/-- Whether a melted value is numeric (finite or inf). -/
def isNumLike : MeltVal → Bool
  | MeltVal.num _ => true
  | MeltVal.infv => true
  | MeltVal.s _ => false

/-- Sort key of a numeric Distance cell: inf after every finite value. -/
def numKey : MeltVal → WithTop ℚ
  | MeltVal.num q => (q : WithTop ℚ)
  | MeltVal.infv => ⊤
  | MeltVal.s _ => ⊤

/-- Sort key of a string Distance cell. -/
def strKey : MeltVal → String
  | MeltVal.s t => t
  | _ => ""

/-- Ranking order on melted records by numeric Distance. -/
def rankLe (a b : Melted) : Prop := numKey a.2.2 ≤ numKey b.2.2

/-- Order on melted records by string Distance. -/
def strRankLe (a b : Melted) : Prop := strKey a.2.2 ≤ strKey b.2.2

instance : DecidableRel rankLe :=
  fun a b => inferInstanceAs (Decidable (numKey a.2.2 ≤ numKey b.2.2))

instance : DecidableRel strRankLe :=
  fun a b => inferInstanceAs (Decidable (strKey a.2.2 ≤ strKey b.2.2))

instance : IsTotal Melted rankLe :=
  ⟨fun a b => le_total (numKey a.2.2) (numKey b.2.2)⟩

instance : IsTrans Melted rankLe :=
  ⟨fun _ _ _ hab hbc => le_trans hab hbc⟩

/-- Line 180: sort_values("Distance") on the object-dtype Distance
column.  When the surviving cells mix strings with numeric values the
comparison raises a TypeError (none); a homogeneous column sorts.  The
model's sort is a stable insertion sort; pandas' default sort may permute
equal keys, which no stated property depends on. -/
def sortOrRaise (xs : List Melted) : Option (List Melted) :=
  if xs.any fun e => isStrVal e.2.2 then
    if xs.any fun e => isNumLike e.2.2 then none
    else some (List.insertionSort strRankLe xs)
  else some (List.insertionSort rankLe xs)

/-- Lines 174-180: the Top 10 Closest table — melt, filter, sort, take the
first ten — or none when sort_values raises. -/
def top10Model (rows : List DebugRow) : Option (List Melted) :=
  (sortOrRaise (filteredMelted rows)).map fun l => l.take 10

/-- Concrete symbol names and messages used by the concrete evaluations
below. -/
def symA : String := "A"

/-- Second concrete symbol. -/
def symB : String := "B"

/-- Third concrete symbol. -/
def symX : String := "X"

/-- Concrete error message. -/
def msgBoom : String := "TransientFetchError: boom"

/-- Concrete candle with high 110 and low 95, timestamped inside the week
before Monday 1970-01-12 (day 11). -/
def b110 : Bar := ⟨7200, 1, 110, 95, 1, 1⟩

/-- Concrete candle with high 108 and low 90, also inside that week. -/
def b108 : Bar := ⟨8640, 1, 108, 90, 1, 1⟩

/-- Concrete gateway returning the two-candle weekly series and no
monthly data, regardless of the requested window start. -/
def gw2 : Timeframe → Int → Except String (List Bar)
  | Timeframe.w1, _ => Except.ok [b110, b108]
  | Timeframe.M1, _ => Except.ok []

/-- Concrete candle whose timestamp 6360 equals start_of_this_week for
now = 6360 (Monday 1970-01-05, 10:00): the still-open weekly candle. -/
def bOpenWeek : Bar := ⟨6360, 1, 100, 90, 1, 1⟩

/-- Concrete gateway returning only the still-open weekly candle — the
series a freshly listed instrument yields — and no monthly data. -/
def gw3 : Timeframe → Int → Except String (List Bar)
  | Timeframe.w1, _ => Except.ok [bOpenWeek]
  | Timeframe.M1, _ => Except.ok []

/-- Concrete gateway resolving the previous week to a level of value 0
(a single candle with zero high and low) and no monthly data. -/
def gwZero : Timeframe → Int → Except String (List Bar)
  | Timeframe.w1, _ => Except.ok [⟨0, 0, 0, 0, 0, 0⟩]
  | Timeframe.M1, _ => Except.ok []

/-- Concrete per-worker clock: worker 0 reads Monday 1970-01-05 23:59,
worker 1 reads Tuesday 1970-01-06 00:01. -/
def c5clock : ℕ → Int := fun i => if i = 0 then 7199 else 7201

/-- Concrete symbol-independent gateway whose weekly answer depends only
on the requested window start: a single zero-valued candle exists exactly
for the window start that worker 0's clock reading produces. -/
def c5gw : String → Timeframe → Int → Except String (List Bar) :=
  fun _ tf since =>
    match tf with
    | Timeframe.w1 =>
      if since = -2881 then Except.ok [⟨-2881, 0, 0, 0, 0, 0⟩] else Except.ok []
    | Timeframe.M1 => Except.ok []

/-- Concrete ticker source quoting every symbol at 100. -/
def c5tickers : String → Except String ℚ := fun _ => Except.ok 100

/-- Concrete ticker source where fetching symbol A raises and every other
symbol quotes at 100. -/
def c6tickers : String → Except String ℚ :=
  fun s => if s = symA then Except.error msgBoom else Except.ok 100

/-- Concrete gateway with no historical data at all. -/
def c6gw : String → Timeframe → Int → Except String (List Bar) :=
  fun _ _ _ => Except.ok []

deriving instance DecidableEq for Except

/-- Helper: a fetched series of length at least two resolves to the high
and low of its second-to-last candle. -/
theorem resolvePeriodLevels_two {bars : List Bar} {b : Bar} (hlen : 2 ≤ bars.length)
    (hget : bars.get? (bars.length - 2) = some b) :
    resolvePeriodLevels bars = some (b.high, b.low) := by
  have hne : bars.isEmpty = false := by
    cases bars with
    | nil => simp at hlen
    | cons x xs => rfl
  simp only [resolvePeriodLevels, hne, Bool.false_eq_true, if_false, hlen, if_pos]
  rw [hget]
  rfl

/-- Helper: a fetched series with exactly one candle resolves to that
candle's high and low, with no condition on its timestamp. -/
theorem resolvePeriodLevels_one (b : Bar) : resolvePeriodLevels [b] = some (b.high, b.low) := rfl

/-- C7: get_ohlcv turns a raised gateway exception and an empty gateway
answer into an empty series, and passes a non-empty series through; being
a total function, it raises nothing itself. -/
theorem c7_get_ohlcv_empty_on_failure : ∀ (e : String) (bars : List Bar),
    get_ohlcv (Except.error e) = [] ∧
    get_ohlcv (Except.ok ([] : List Bar)) = [] ∧
    (bars ≠ [] → get_ohlcv (Except.ok bars) = bars) := by
  intro e bars
  refine ⟨rfl, rfl, ?_⟩
  intro h
  cases bars with
  | nil => exact absurd rfl h
  | cons x xs => rfl

/-- Witness for C7 at a concrete non-empty series. -/
theorem c7_witness :
    ([b110] : List Bar) ≠ [] ∧ get_ohlcv (Except.ok [b110]) = [b110] :=
  ⟨by decide, (c7_get_ohlcv_empty_on_failure msgBoom [b110]).2.2 (by decide)⟩

/-- C2, counterexample: on the spec's own scenario series (highs 110 and
108, lows 95 and 90, both candles timestamped inside the previous week
for now = 16440, Monday 1970-01-12 11:24 UTC), the source resolver
returns week_low = 95 — the low of the candle at iloc[-2] — while the
specified maximum/minimum over the window-restricted set is week_high =
110, week_low = 90. -/
theorem c2_counterexample :
    (get_last_week_month_levels 16440 gw2).week_high = some 110 ∧
    (get_last_week_month_levels 16440 gw2).week_low = some 95 ∧
    ((calendarBoundaries 16440).start_of_last_week ≤ b110.timestamp ∧
      b110.timestamp < (calendarBoundaries 16440).start_of_this_week) ∧
    ((calendarBoundaries 16440).start_of_last_week ≤ b108.timestamp ∧
      b108.timestamp < (calendarBoundaries 16440).start_of_this_week) ∧
    specRestrictedLevels [b110, b108] (calendarBoundaries 16440).start_of_last_week
        (calendarBoundaries 16440).start_of_this_week = some (110, 90) ∧
    (95 : ℚ) ≠ 90 := by
  decide

/-- C2, amended: the resolver performs no maximum or minimum over a
window-restricted set; whenever the weekly gateway answer has at least two
candles, the resolved week_high and week_low are the high and low of the
candle at iloc[-2], whatever the candles' timestamps.  On the scenario
series it therefore returns week_high = 110 and week_low = 95, not 90. -/
theorem c2_amended_iloc : ∀ (now : Int) (gw : Timeframe → Int → Except String (List Bar))
    (bars : List Bar) (b : Bar),
    gw Timeframe.w1 (calendarBoundaries now).start_of_last_week = Except.ok bars →
    2 ≤ bars.length →
    bars.get? (bars.length - 2) = some b →
    (get_last_week_month_levels now gw).week_high = some b.high ∧
    (get_last_week_month_levels now gw).week_low = some b.low := by
  intro now gw bars b hgw hlen hget
  have hres : resolvePeriodLevels
      (get_ohlcv (gw Timeframe.w1 (calendarBoundaries now).start_of_last_week)) =
      some (b.high, b.low) := by
    rw [hgw]
    cases bars with
    | nil => simp at hlen
    | cons x xs =>
      rw [show get_ohlcv (Except.ok (x :: xs)) = x :: xs from rfl]
      exact resolvePeriodLevels_two hlen hget
  exact ⟨by simp [get_last_week_month_levels, levelsFromBoundaries, hres],
         by simp [get_last_week_month_levels, levelsFromBoundaries, hres]⟩

/-- Witness for the amended C2 at the concrete scenario inputs. -/
theorem c2_witness :
    gw2 Timeframe.w1 (calendarBoundaries 16440).start_of_last_week = Except.ok [b110, b108] ∧
    2 ≤ ([b110, b108] : List Bar).length ∧
    ([b110, b108] : List Bar).get? (([b110, b108] : List Bar).length - 2) = some b110 ∧
    (get_last_week_month_levels 16440 gw2).week_high = some b110.high :=
  ⟨rfl, by decide, by decide,
   (c2_amended_iloc 16440 gw2 [b110, b108] b110 rfl (by decide) (by decide)).1⟩

/-- C3, counterexample: with now = 6360 (Monday 1970-01-05 10:00 UTC) the
start of the current week is 6360 itself, and a weekly series consisting
of exactly one candle timestamped at 6360 — the still-open current weekly
candle — is resolved into the previous-week levels: a bar with timestamp
at the start of the current period contributes. -/
theorem c3_counterexample :
    (get_last_week_month_levels 6360 gw3).week_high = some 100 ∧
    (get_last_week_month_levels 6360 gw3).week_low = some 90 ∧
    (calendarBoundaries 6360).start_of_this_week ≤ bOpenWeek.timestamp ∧
    gw3 Timeframe.w1 (calendarBoundaries 6360).start_of_last_week = Except.ok [bOpenWeek] := by
  decide

/-- C3, amended: the resolver never filters by timestamp.  With two or
more candles it uses the candle at iloc[-2] (the most recently closed one
when the series ends with the still-open candle), and with exactly one
candle it uses that candle even when its timestamp is at or after the
start of the current period, so look-ahead occurs in the one-candle
case. -/
theorem c3_amended_single_bar : ∀ (now : Int)
    (gw : Timeframe → Int → Except String (List Bar)) (b : Bar),
    gw Timeframe.w1 (calendarBoundaries now).start_of_last_week = Except.ok [b] →
    (get_last_week_month_levels now gw).week_high = some b.high ∧
    (get_last_week_month_levels now gw).week_low = some b.low := by
  intro now gw b hgw
  have hres : resolvePeriodLevels
      (get_ohlcv (gw Timeframe.w1 (calendarBoundaries now).start_of_last_week)) =
      some (b.high, b.low) := by
    rw [hgw]
    rw [show get_ohlcv (Except.ok [b]) = [b] from rfl]
    exact resolvePeriodLevels_one b
  exact ⟨by simp [get_last_week_month_levels, levelsFromBoundaries, hres],
         by simp [get_last_week_month_levels, levelsFromBoundaries, hres]⟩

/-- Witness for the amended C3 at the concrete single-candle inputs. -/
theorem c3_witness :
    gw3 Timeframe.w1 (calendarBoundaries 6360).start_of_last_week = Except.ok [bOpenWeek] ∧
    (get_last_week_month_levels 6360 gw3).week_high = some bOpenWeek.high :=
  ⟨rfl, (c3_amended_single_bar 6360 gw3 bOpenWeek rfl).1⟩

/-- Helper: at a non-zero level the computed distance is the finite value
abs(price - level) / level * 100. -/
theorem pyDistVal_ne_zero {l : ℚ} (p : ℚ) (hl : l ≠ 0) :
    pyDistVal p l = PyFloat.fin (|p - l| / l * 100) := by
  simp [pyDistVal, hl]

/-- C1, counterexample: at price 95 against level 100 — price strictly
below the level — the computed distance is +5, not the signed value
(price - level) / level * 100 = -5: the source applies abs to the
numerator, so the sign is not preserved and a positive value does not mean
price above the level.  The match tuple carries the same positive 5. -/
theorem c1_counterexample :
    evalKey symX 95 20 (some 100) =
      (DistEntry.val (PyFloat.fin 5), some (symX, 95, PyFloat.fin 5)) ∧
    (95 : ℚ) < 100 ∧
    ((95 - 100 : ℚ) / 100 * 100 = -5) ∧
    ((5 : ℚ) ≠ -5) ∧
    ¬ ((5 : ℚ) < 0) := by
  refine ⟨?_, by norm_num, by norm_num, by norm_num, by norm_num⟩
  norm_num [evalKey, pyDistVal, pyLe, pyRound2F, pyRound2, roundHalfEven]

/-- C1, amended: for a positive level the computed distance equals
abs(price - level) / level * 100, a value that is nonnegative whether the
price is above or below the level; the diagnostic entry records it
rounded.  The sign of (price - level) is discarded. -/
theorem c1_amended_abs_distance : ∀ (sym : String) (p l θ : ℚ), 0 < l →
    pyDistVal p l = PyFloat.fin (|p - l| / l * 100) ∧
    0 ≤ |p - l| / l * 100 ∧
    (evalKey sym p θ (some l)).1 =
      DistEntry.val (PyFloat.fin (pyRound2 (|p - l| / l * 100))) := by
  intro sym p l θ hl
  have hl0 : l ≠ 0 := ne_of_gt hl
  refine ⟨pyDistVal_ne_zero p hl0, ?_, ?_⟩
  · exact mul_nonneg (div_nonneg (abs_nonneg _) hl.le) (by norm_num)
  · simp [evalKey, pyDistVal_ne_zero p hl0, pyRound2F]

/-- Witness for the amended C1 at price 95, level 100. -/
theorem c1_witness :
    (0 : ℚ) < 100 ∧ 0 ≤ |(95 : ℚ) - 100| / 100 * 100 :=
  ⟨by norm_num, (c1_amended_abs_distance symX 95 100 20 (by norm_num)).2.1⟩

/-- C4, counterexample: a resolved level of value 0 (weekly candle with
zero high and low) is not skipped: at price 50 the division yields inf,
the diagnostic entry for week_high and week_low is the recorded value inf
— not the no_data marker that skipping produces — and no error row is
written.  The month levels, absent here, are still evaluated to no_data
and the instrument's row is recorded. -/
theorem c4_counterexample :
    scan_symbol 2 symA 0 (Except.ok 50) gwZero =
      (⟨none, none, none, none⟩,
       DebugRow.dists symA (DistEntry.val PyFloat.inf) (DistEntry.val PyFloat.inf)
         DistEntry.no_data DistEntry.no_data) ∧
    DistEntry.val PyFloat.inf ≠ DistEntry.no_data := by
  decide

/-- Helper: evaluating a zero level at a non-zero price yields the entry
inf and no match, without any error. -/
theorem evalKey_zero_level {p : ℚ} (sym : String) (θ : ℚ) (hp : p ≠ 0) :
    evalKey sym p θ (some 0) = (DistEntry.val PyFloat.inf, none) := by
  simp [evalKey, pyDistVal, hp, pyLe, pyRound2F]

/-- C4, amended: a level of value 0 does not raise — the numpy division
yields a non-finite value — and the remaining levels of the instrument are
still evaluated and recorded; but the zero level is not skipped: it never
matches, and its diagnostic entry is the non-finite distance inf rather
than the no_data marker. -/
theorem c4_amended_zero_level : ∀ (θ : ℚ) (sym : String) (now : Int) (p : ℚ)
    (gw : Timeframe → Int → Except String (List Bar)),
    p ≠ 0 →
    (get_last_week_month_levels now gw).week_high = some 0 →
    scan_symbol θ sym now (Except.ok p) gw =
      (⟨none,
        (evalKey sym p θ (get_last_week_month_levels now gw).week_low).2,
        (evalKey sym p θ (get_last_week_month_levels now gw).month_high).2,
        (evalKey sym p θ (get_last_week_month_levels now gw).month_low).2⟩,
       DebugRow.dists sym (DistEntry.val PyFloat.inf)
         (evalKey sym p θ (get_last_week_month_levels now gw).week_low).1
         (evalKey sym p θ (get_last_week_month_levels now gw).month_high).1
         (evalKey sym p θ (get_last_week_month_levels now gw).month_low).1) := by
  intro θ sym now p gw hp hwh
  simp only [scan_symbol]
  rw [hwh, evalKey_zero_level sym θ hp]

/-- Witness for the amended C4 at the concrete zero-level inputs. -/
theorem c4_witness :
    (50 : ℚ) ≠ 0 ∧
    (get_last_week_month_levels 0 gwZero).week_high = some 0 ∧
    (scan_symbol 2 symA 0 (Except.ok 50) gwZero).1.week_high = none := by
  refine ⟨by norm_num, by decide, ?_⟩
  rw [c4_amended_zero_level 2 symA 0 50 gwZero (by norm_num) (by decide)]

/-- C10: the diagnostic distances dict stores the distance rounded to two
decimal places, while both the threshold comparison and the distance
carried in a match tuple use the unrounded value; at price 102.004 against
level 100 with threshold 2 the diagnostic entry equals the threshold
exactly, 2.00, yet no match is emitted because the unrounded 2.004 exceeds
it. -/
theorem c10_rounded_diagnostic_unrounded_match :
    (∀ (sym : String) (p l θ : ℚ), l ≠ 0 →
      (evalKey sym p θ (some l)).1 =
        DistEntry.val (PyFloat.fin (pyRound2 (|p - l| / l * 100))) ∧
      ((evalKey sym p θ (some l)).2 = some (sym, p, PyFloat.fin (|p - l| / l * 100)) ↔
        |p - l| / l * 100 ≤ θ) ∧
      ((evalKey sym p θ (some l)).2 = none ↔ ¬ (|p - l| / l * 100 ≤ θ))) ∧
    evalKey symX (102004 / 1000) 2 (some 100) = (DistEntry.val (PyFloat.fin 2), none) ∧
    pyRound2 (|(102004 : ℚ) / 1000 - 100| / 100 * 100) = 2 ∧
    ¬ (|(102004 : ℚ) / 1000 - 100| / 100 * 100 ≤ 2) := by
  refine ⟨?_, ?_, ?_, ?_⟩
  case refine_2 =>
    norm_num [evalKey, pyDistVal, pyLe, pyRound2F, pyRound2, roundHalfEven, Int.fract,
      abs_of_nonneg]
  case refine_3 => norm_num [pyRound2, roundHalfEven, Int.fract, abs_of_nonneg]
  case refine_4 => norm_num [abs_of_nonneg]
  intro sym p l θ hl
  have hd := pyDistVal_ne_zero p hl
  refine ⟨by simp [evalKey, hd, pyRound2F], ?_, ?_⟩ <;>
    by_cases h : |p - l| / l * 100 ≤ θ <;>
      simp [evalKey, hd, pyLe, h]

/-- Witness for C10's quantified part at price 95, level 100. -/
theorem c10_witness :
    (100 : ℚ) ≠ 0 ∧
    (evalKey symX 95 20 (some 100)).1 =
      DistEntry.val (PyFloat.fin (pyRound2 (|(95 : ℚ) - 100| / 100 * 100))) :=
  ⟨by norm_num,
   (c10_rounded_diagnostic_unrounded_match.1 symX 95 100 20 (by norm_num)).1⟩

/-- Helper: the worker spawned for position j of the symbol list scans
that symbol with the clock reading of index i + j. -/
theorem runWorkers_get (θ : ℚ) (clock : ℕ → Int) (tickers : String → Except String ℚ)
    (gw : String → Timeframe → Int → Except String (List Bar)) :
    ∀ (symbols : List String) (i j : ℕ),
      (runWorkers θ clock tickers gw i symbols).get? j =
        (symbols.get? j).map (fun s => scan_symbol θ s (clock (i + j)) (tickers s) (gw s)) := by
  intro symbols
  induction symbols with
  | nil => intro i j; cases j <;> rfl
  | cons s rest ih =>
    intro i j
    cases j with
    | zero => rfl
    | succ j =>
      have e : i + (j + 1) = (i + 1) + j := by omega
      rw [show (runWorkers θ clock tickers gw i (s :: rest)).get? (j + 1) =
            (runWorkers θ clock tickers gw (i + 1) rest).get? j from rfl, e]
      exact ih (i + 1) j

/-- Helper: position j of the debug-row list of a pass is the debug row of
the worker for symbol j, computed from that worker's own clock reading. -/
theorem scanPass_debug_get (θ : ℚ) (symbols : List String) (clock : ℕ → Int)
    (tickers : String → Except String ℚ)
    (gw : String → Timeframe → Int → Except String (List Bar)) (j : ℕ) :
    (scanPass θ symbols clock tickers gw).2.1.get? j =
      (symbols.get? j).map (fun s => (scan_symbol θ s (clock j) (tickers s) (gw s)).2) := by
  show ((runWorkers θ clock tickers gw 0 symbols).map Prod.snd).get? j = _
  rw [List.get?_map, runWorkers_get θ clock tickers gw symbols 0 j, Nat.zero_add,
    Option.map_map]
  rfl

/-- C5, counterexample: the scan pass over two symbols against one and the
same ticker source and one and the same symbol-independent gateway, in
which worker 0 reads the clock late on Monday 1970-01-05 and worker 1
reads it just after the following midnight, resolves levels for the first
symbol and none for the second: each worker computed its own boundaries
from its own datetime.utcnow() reading, and those boundaries differ — no
single shared reference instant exists. -/
theorem c5_counterexample :
    (scanPass 2 [symA, symB] c5clock c5tickers c5gw).2.1 =
      [DebugRow.dists symA (DistEntry.val PyFloat.inf) (DistEntry.val PyFloat.inf)
         DistEntry.no_data DistEntry.no_data,
       DebugRow.dists symB DistEntry.no_data DistEntry.no_data DistEntry.no_data
         DistEntry.no_data] ∧
    calendarBoundaries (c5clock 0) ≠ calendarBoundaries (c5clock 1) ∧
    c5tickers symA = c5tickers symB := by
  decide

/-- C5, amended: datetime.utcnow() is read inside get_last_week_month_levels,
once per worker: the worker at position j of the pass computes its levels
from the boundaries calendarBoundaries applied to its own clock reading,
not from a pass-wide shared instant, so two workers of one pass can use
different boundaries (which also retain the reading's time of day). -/
theorem c5_amended_per_worker_clock : ∀ (θ : ℚ) (symbols : List String) (clock : ℕ → Int)
    (tickers : String → Except String ℚ)
    (gw : String → Timeframe → Int → Except String (List Bar)) (j : ℕ) (s : String),
    symbols.get? j = some s →
    (scanPass θ symbols clock tickers gw).2.1.get? j =
      some ((scan_symbol θ s (clock j) (tickers s) (gw s)).2) ∧
    ∀ (now : Int) (g : Timeframe → Int → Except String (List Bar)),
      get_last_week_month_levels now g = levelsFromBoundaries (calendarBoundaries now) g := by
  intro θ symbols clock tickers gw j s h
  refine ⟨?_, fun now g => rfl⟩
  rw [scanPass_debug_get θ symbols clock tickers gw j, h]
  rfl

/-- Witness for the amended C5 at the concrete two-symbol pass. -/
theorem c5_witness :
    ([symA, symB].get? 0 = some symA) ∧
    (scanPass 2 [symA, symB] c5clock c5tickers c5gw).2.1.get? 0 =
      some ((scan_symbol 2 symA (c5clock 0) (c5tickers symA) (c5gw symA)).2) :=
  ⟨rfl, (c5_amended_per_worker_clock 2 [symA, symB] c5clock c5tickers c5gw 0 symA rfl).1⟩

/-- Helper: merging one worker result appends its match, if any, to each
per-level list. -/
theorem mergeResult_field (acc : Results) (r : ScanResult) (k : LevelName) :
    (mergeResult acc r).field k = acc.field k ++ (r.field k).toList := by
  cases k <;> rfl

/-- Helper: after the fan-in loop, each per-level list is the initial list
followed by the matches of the processed workers, in processing order. -/
theorem collectFrom_results_field : ∀ (rs : List ScanResult) (acc : Results) (c : ℕ)
    (k : LevelName),
    ((collectFrom acc c rs).1).field k = acc.field k ++ rs.filterMap (fun r => r.field k) := by
  intro rs
  induction rs with
  | nil => intro acc c k; simp [collectFrom]
  | cons r rest ih =>
    intro acc c k
    rw [show (collectFrom acc c (r :: rest)).1 =
          (collectFrom (mergeResult acc r) (c + 1) rest).1 from rfl]
    rw [ih (mergeResult acc r) (c + 1) k, mergeResult_field]
    cases hf : r.field k with
    | none => simp [List.filterMap_cons, hf]
    | some m => simp [List.filterMap_cons, hf]

/-- Helper: the whole collection yields exactly the workers' matches. -/
theorem collect_results_field (rs : List ScanResult) (k : LevelName) :
    ((collect rs).1).field k = rs.filterMap (fun r => r.field k) := by
  have h := collectFrom_results_field rs emptyResults 0 k
  rw [collect, h]
  cases k <;> rfl

/-- Helper: a worker whose ticker fetch raised returns the all-None result
and the error row tagged with its symbol and message. -/
theorem scan_symbol_error (θ : ℚ) (s : String) (now : Int) (e : String)
    (gw : Timeframe → Int → Except String (List Bar)) :
    scan_symbol θ s now (Except.error e) gw =
      (⟨none, none, none, none⟩, DebugRow.err s e) := rfl

/-- C6: a per-instrument exception (modelled at the ticker fetch, the one
operation inside the try block of scan_symbol that can raise) is caught at
the worker boundary and recorded as an error row tagged with the symbol
and the message, and every other instrument's debug row and match tuples
still appear in the aggregated pass output. -/
theorem c6_failure_isolation : ∀ (θ : ℚ) (symbols : List String) (clock : ℕ → Int)
    (tickers : String → Except String ℚ)
    (gw : String → Timeframe → Int → Except String (List Bar)) (i : ℕ) (s e : String),
    symbols.get? i = some s → tickers s = Except.error e →
    DebugRow.err s e ∈ (scanPass θ symbols clock tickers gw).2.1 ∧
    (∀ (j : ℕ) (t : String), symbols.get? j = some t →
      (scan_symbol θ t (clock j) (tickers t) (gw t)).2 ∈
        (scanPass θ symbols clock tickers gw).2.1) ∧
    (∀ (j : ℕ) (t : String) (k : LevelName) (m : String × ℚ × PyFloat),
      symbols.get? j = some t →
      (scan_symbol θ t (clock j) (tickers t) (gw t)).1.field k = some m →
      m ∈ ((scanPass θ symbols clock tickers gw).1).field k) := by
  intro θ symbols clock tickers gw i s e hget herr
  have hdbg : ∀ (j : ℕ) (t : String), symbols.get? j = some t →
      (scan_symbol θ t (clock j) (tickers t) (gw t)).2 ∈
        (scanPass θ symbols clock tickers gw).2.1 := by
    intro j t hj
    apply List.get?_mem
    rw [scanPass_debug_get θ symbols clock tickers gw j, hj]
    rfl
  refine ⟨?_, hdbg, ?_⟩
  · have h := hdbg i s hget
    rw [herr] at h
    exact h
  · intro j t k m hj hm
    have hfield : ((scanPass θ symbols clock tickers gw).1).field k =
        ((runWorkers θ clock tickers gw 0 symbols).map Prod.fst).filterMap
          (fun r => r.field k) := collect_results_field _ k
    rw [hfield]
    have hidx : ((runWorkers θ clock tickers gw 0 symbols).map Prod.fst).get? j =
        some (scan_symbol θ t (clock j) (tickers t) (gw t)).1 := by
      rw [List.get?_map, runWorkers_get θ clock tickers gw symbols 0 j, Nat.zero_add, hj]
      rfl
    exact List.mem_filterMap.mpr ⟨_, List.get?_mem hidx, hm⟩

/-- Witness for C6: a two-symbol pass in which fetching symbol A raises. -/
theorem c6_witness :
    ([symA, symB].get? 0 = some symA) ∧
    c6tickers symA = Except.error msgBoom ∧
    DebugRow.err symA msgBoom ∈
      (scanPass 2 [symA, symB] (fun _ => 0) c6tickers c6gw).2.1 := by
  refine ⟨rfl, rfl, ?_⟩
  exact (c6_failure_isolation 2 [symA, symB] (fun _ => 0) c6tickers c6gw 0 symA msgBoom
    rfl rfl).1

/-- Helper: the fan-in loop processes one result per iteration, so the
final counter is the initial counter plus the number of results. -/
theorem collectFrom_count : ∀ (rs : List ScanResult) (acc : Results) (c : ℕ),
    (collectFrom acc c rs).2.1 = c + rs.length := by
  intro rs
  induction rs with
  | nil => intro acc c; rfl
  | cons r rest ih =>
    intro acc c
    rw [show (collectFrom acc c (r :: rest)).2.1 =
          (collectFrom (mergeResult acc r) (c + 1) rest).2.1 from rfl]
    rw [ih (mergeResult acc r) (c + 1)]
    simp only [List.length_cons]
    omega

/-- Helper: the counter values reported after each completion are the
consecutive integers from the initial counter plus one. -/
theorem collectFrom_trace : ∀ (rs : List ScanResult) (acc : Results) (c : ℕ),
    (collectFrom acc c rs).2.2 = List.range' (c + 1) rs.length := by
  intro rs
  induction rs with
  | nil => intro acc c; rfl
  | cons r rest ih =>
    intro acc c
    rw [show (collectFrom acc c (r :: rest)).2.2 =
          (c + 1) :: (collectFrom (mergeResult acc r) (c + 1) rest).2.2 from rfl]
    rw [ih (mergeResult acc r) (c + 1)]
    rfl

/-- Helper: a block of consecutive integers is strictly increasing. -/
theorem chain'_lt_range' : ∀ (n s : ℕ),
    List.Chain' (fun a b => a < b) (List.range' s n) := by
  intro n
  induction n with
  | zero => intro s; exact List.chain'_nil
  | succ m ih =>
    intro s
    cases m with
    | zero => exact List.chain'_singleton s
    | succ m2 =>
      rw [show List.range' s (m2 + 2) = s :: List.range' (s + 1) (m2 + 1) from rfl,
        List.chain'_cons']
      refine ⟨?_, ih (s + 1)⟩
      intro x hx
      rw [show (List.range' (s + 1) (m2 + 1)).head? = some (s + 1) from rfl] at hx
      have : s + 1 = x := by
        simpa using hx
      omega

/-- C8: for any completion order of the workers' results, the completed
counter starts at 0, the values it reports are exactly 1, 2, ..., N in
order — strictly increasing, one increment per completed worker, no
regression and no double count — and the final value is N, reached exactly
when every worker has been collected; any two completion orders of the
same results produce the same trace and the same final count. -/
theorem c8_progress_counter : ∀ (rs rs2 : List ScanResult), rs.Perm rs2 →
    (collect rs).2.2 = List.range' 1 rs.length ∧
    (collect rs).2.1 = rs.length ∧
    List.Chain' (fun a b => a < b) (0 :: (collect rs).2.2) ∧
    (collect rs).2.2 = (collect rs2).2.2 ∧
    (collect rs).2.1 = (collect rs2).2.1 := by
  intro rs rs2 hperm
  have htr : ∀ l : List ScanResult, (collect l).2.2 = List.range' 1 l.length :=
    fun l => collectFrom_trace l emptyResults 0
  have hct : ∀ l : List ScanResult, (collect l).2.1 = l.length :=
    fun l => (collectFrom_count l emptyResults 0).trans (Nat.zero_add _)
  refine ⟨htr rs, hct rs, ?_, ?_, ?_⟩
  · rw [htr rs, show (0 :: List.range' 1 rs.length) = List.range' 0 (rs.length + 1) from rfl]
    exact chain'_lt_range' (rs.length + 1) 0
  · rw [htr rs, htr rs2, hperm.length_eq]
  · rw [hct rs, hct rs2, hperm.length_eq]

/-- Witness for C8 at a concrete singleton completion order. -/
theorem c8_witness :
    (([⟨none, none, none, none⟩] : List ScanResult).Perm [⟨none, none, none, none⟩]) ∧
    (collect ([⟨none, none, none, none⟩] : List ScanResult)).2.1 = 1 := by
  refine ⟨List.Perm.refl _, ?_⟩
  have h := c8_progress_counter [⟨none, none, none, none⟩] [⟨none, none, none, none⟩]
    (List.Perm.refl _)
  simpa using h.2.1

/-- Helper: a pass in which every debug row is a distances row appended no
error row. -/
theorem all_dists_no_err {rows : List DebugRow} (hall : rows.all isDistsRow = true) :
    rows.any isErrRow = false := by
  cases hh : rows.any isErrRow with
  | false => rfl
  | true =>
    exfalso
    obtain ⟨r, hr, he⟩ := List.any_eq_true.mp hh
    have hd := List.all_eq_true.mp hall r hr
    cases r with
    | dists a b c d f => simp [isErrRow] at he
    | err a b => simp [isDistsRow] at hd

/-- Helper: a melted cell that survives the no_data filter came from a
computed distance, finite or inf. -/
theorem entryVal_some {d : DistEntry} {v : MeltVal} (h : entryVal d = some v)
    (hv : v ≠ MeltVal.s noDataStr) : isNumLike v = true := by
  cases d with
  | no_data =>
    have hvv : MeltVal.s noDataStr = v := by
      simpa [entryVal] using h
    exact absurd hvv.symm hv
  | val pf =>
    cases pf with
    | fin q =>
      have hvv : MeltVal.num q = v := by
        simpa [entryVal] using h
      rw [← hvv]
      rfl
    | inf =>
      have hvv : MeltVal.infv = v := by
        simpa [entryVal] using h
      rw [← hvv]
      rfl
    | nan => simp [entryVal] at h

/-- Helper: any surviving cell of a distances row is numeric. -/
theorem cell_dists_numLike {sym : String} {wh wl mh ml : DistEntry} {col : Column}
    {v : MeltVal} (h : cell (DebugRow.dists sym wh wl mh ml) col = some v)
    (hv : v ≠ MeltVal.s noDataStr) : isNumLike v = true := by
  cases col with
  | error => simp [cell] at h
  | week_high => exact entryVal_some h hv
  | week_low => exact entryVal_some h hv
  | month_high => exact entryVal_some h hv
  | month_low => exact entryVal_some h hv

/-- Helper: every record surviving the melt-and-filter of an error-free
pass carries a level-name column, a numeric distance, and points back to
the cell of the debug row of its symbol. -/
theorem filteredMelted_clean {rows : List DebugRow} (hall : rows.all isDistsRow = true) :
    ∀ e ∈ filteredMelted rows,
      e.2.1 ∈ levelNames ∧ isNumLike e.2.2 = true ∧
      ∃ r, r ∈ rows ∧ rowSymbol r = e.1 ∧ cell r e.2.1 = some e.2.2 := by
  have hnoerr := all_dists_no_err hall
  intro e he
  rw [filteredMelted, List.mem_filter] at he
  obtain ⟨hmelt, hcond⟩ := he
  have hnd : e.2.2 ≠ MeltVal.s noDataStr := by
    intro hc
    rw [hc] at hcond
    simp at hcond
  rw [meltedRows, List.mem_flatMap] at hmelt
  obtain ⟨col, hcol, hin⟩ := hmelt
  rw [List.mem_filterMap] at hin
  obtain ⟨r, hr, hcell⟩ := hin
  have hd : isDistsRow r = true := List.all_eq_true.mp hall r hr
  have hanyd : rows.any isDistsRow = true := List.any_eq_true.mpr ⟨r, hr, hd⟩
  have hfc : frameColumns rows = levelNames := by
    rw [frameColumns, hnoerr, hanyd]
    simp
  rw [hfc] at hcol
  obtain ⟨v, hcv, hfv⟩ := Option.map_eq_some'.mp hcell
  cases r with
  | err a b => simp [isDistsRow] at hd
  | dists sym wh wl mh ml =>
    subst hfv
    exact ⟨hcol, cell_dists_numLike hcv hnd, ⟨DebugRow.dists sym wh wl mh ml, hr, rfl, hcv⟩⟩

/-- C9, amended: in a pass with no failure entry, the ranking view is
built over all surviving melted distance records — matches and non-matches
alike, for every instrument and level name — sorted ascending by the
recorded (rounded, possibly infinite) distance, truncated to the first
ten, and every entry of it carries a level-name column with a numeric
distance taken from the corresponding instrument's diagnostic cell, so no
unresolvable instrument/level pair appears.  When a failure entry exists,
its message enters the melt under the error column instead: coexisting
with numeric distances it makes the sort raise a TypeError, and in an
all-failure pass the view consists of the error rows themselves, as the
counterexample records. -/
theorem c9_ranking_clean : ∀ (rows : List DebugRow), rows.all isDistsRow = true →
    ∃ sortedAll : List Melted,
      sortedAll.Perm (filteredMelted rows) ∧
      List.Sorted rankLe sortedAll ∧
      top10Model rows = some (sortedAll.take 10) ∧
      (sortedAll.take 10).length ≤ 10 ∧
      ∀ e ∈ sortedAll.take 10,
        e.2.1 ∈ levelNames ∧ isNumLike e.2.2 = true ∧
        ∃ r, r ∈ rows ∧ rowSymbol r = e.1 ∧ cell r e.2.1 = some e.2.2 := by
  intro rows hall
  have hmem := filteredMelted_clean hall
  have hnostr : (filteredMelted rows).any (fun e => isStrVal e.2.2) = false := by
    cases hh : (filteredMelted rows).any (fun e => isStrVal e.2.2) with
    | false => rfl
    | true =>
      exfalso
      obtain ⟨e, he, hstr⟩ := List.any_eq_true.mp hh
      have hnum := (hmem e he).2.1
      cases hv : e.2.2 with
      | num q => rw [hv] at hstr; simp [isStrVal] at hstr
      | infv => rw [hv] at hstr; simp [isStrVal] at hstr
      | s t => rw [hv] at hnum; simp [isNumLike] at hnum
  have htop : top10Model rows =
      some ((List.insertionSort rankLe (filteredMelted rows)).take 10) := by
    unfold top10Model sortOrRaise
    rw [hnostr]
    rfl
  refine ⟨List.insertionSort rankLe (filteredMelted rows),
    List.perm_insertionSort _ _, List.sorted_insertionSort _ _, htop, ?_, ?_⟩
  · rw [List.length_take]
    exact min_le_left _ _
  · intro e he
    have he2 : e ∈ List.insertionSort rankLe (filteredMelted rows) :=
      List.take_subset 10 _ he
    have he3 : e ∈ filteredMelted rows :=
      (List.perm_insertionSort rankLe _).mem_iff.mp he2
    exact hmem e he3

/-- C9, counterexample: in a pass whose only row is an error row, the
Top 10 view is built and contains the record (A, error, message) — an
instrument/level pair with no resolvable level (the error column is not a
level name and the failed instrument resolved nothing); and as soon as a
failure entry coexists with a numeric distance, the mixed-type Distance
column makes the sort raise, so no ranking view is produced at all. -/
theorem c9_counterexample :
    top10Model [DebugRow.err symA msgBoom] =
      some [(symA, Column.error, MeltVal.s msgBoom)] ∧
    Column.error ∉ levelNames ∧
    (∀ c ∈ levelNames, cell (DebugRow.err symA msgBoom) c = none) ∧
    top10Model [DebugRow.dists symB (DistEntry.val (PyFloat.fin 1)) DistEntry.no_data
        DistEntry.no_data DistEntry.no_data,
      DebugRow.err symA msgBoom] = none := by
  decide

/-- Witness for the amended C9 at a concrete error-free pass. -/
theorem c9_witness :
    ([DebugRow.dists symA (DistEntry.val (PyFloat.fin 1)) DistEntry.no_data DistEntry.no_data
        DistEntry.no_data].all isDistsRow = true) ∧
    ∃ sortedAll : List Melted,
      sortedAll.Perm (filteredMelted [DebugRow.dists symA (DistEntry.val (PyFloat.fin 1))
        DistEntry.no_data DistEntry.no_data DistEntry.no_data]) ∧
      List.Sorted rankLe sortedAll ∧
      top10Model [DebugRow.dists symA (DistEntry.val (PyFloat.fin 1)) DistEntry.no_data
        DistEntry.no_data DistEntry.no_data] = some (sortedAll.take 10) ∧
      (sortedAll.take 10).length ≤ 10 ∧
      ∀ e ∈ sortedAll.take 10,
        e.2.1 ∈ levelNames ∧ isNumLike e.2.2 = true ∧
        ∃ r, r ∈ [DebugRow.dists symA (DistEntry.val (PyFloat.fin 1)) DistEntry.no_data
          DistEntry.no_data DistEntry.no_data] ∧ rowSymbol r = e.1 ∧ cell r e.2.1 = some e.2.2 :=
  ⟨by decide, c9_ranking_clean _ (by decide)⟩
